import Mathlib

/-!
Verification of the Dataset and Flow Aggregation Engine of the
Maryland Opportunities Dashboard backend (backend/main.py).

Numeric values are modelled as rationals, missing values (None / NaN /
pandas NA) as `Option` with `none` for missing.  Stateful pandas
pipelines are modelled as pure functions over lists of records.
-/

namespace Dashboard

/-! ### Quantile classifier (backend/main.py, quantile_thresholds / get_quintile) -/

/-- Embeds the inner `pct` closure of `quantile_thresholds`:
`idx = int(p * (n - 1)); return float(sorted_vals[idx])`. -/
def pct (sorted_vals : List ℚ) (p : ℚ) : ℚ :=
  sorted_vals.getD (⌊p * ((sorted_vals.length : ℚ) - 1)⌋).toNat 0

/-- Embeds `quantile_thresholds`: drop missing values, return `[0,0,0,0]` if
none remain, else sort ascending and take nearest-rank 20/40/60/80th
percentile cut points. -/
def quantile_thresholds (values : List (Option ℚ)) : List ℚ :=
  let clean := values.filterMap id
  if clean = [] then [0, 0, 0, 0]
  else
    let sorted_vals := clean.insertionSort (· ≤ ·)
    [pct sorted_vals (1/5), pct sorted_vals (2/5),
     pct sorted_vals (3/5), pct sorted_vals (4/5)]

/-- Embeds `get_quintile`: missing maps to 0, otherwise the first 1-based
threshold index with `val ≤ threshold`, else 5. -/
def get_quintile (val : Option ℚ) (thresholds : List ℚ) : ℕ :=
  match val with
  | none => 0
  | some v =>
    if v ≤ thresholds.getD 0 0 then 1
    else if v ≤ thresholds.getD 1 0 then 2
    else if v ≤ thresholds.getD 2 0 then 3
    else if v ≤ thresholds.getD 3 0 then 4
    else 5

/-- Embeds `FLOW_WIDTH_BY_QUINTILE` (a dict, absent keys give `none`). -/
def FLOW_WIDTH_BY_QUINTILE (q : ℤ) : Option ℚ :=
  if q = 1 then some (1/2)
  else if q = 2 then some (4/5)
  else if q = 3 then some (6/5)
  else if q = 4 then some (9/5)
  else if q = 5 then some (5/2)
  else none

/-- Embeds `width_from_quintile`:
`q = max(1, min(5, int(quintile) if quintile else 1))` then a table
lookup with default 1.0. -/
def width_from_quintile (quintile : ℤ) : ℚ :=
  let q := max 1 (min 5 (if quintile ≠ 0 then quintile else 1))
  (FLOW_WIDTH_BY_QUINTILE q).getD 1

/-! ### Value normalizer (backend/main.py, clean_long_numeric / numeric_series) -/

/-- The digit characters of a string, in order:
`"".join(ch for ch in str(value) if ch.isdigit())`. -/
def digitsOf (s : String) : List Char :=
  s.data.filter Char.isDigit

/-- The natural number denoted by a list of decimal digit characters,
as Python `int` reads it. -/
def natOfDigits (l : List Char) : ℕ :=
  l.foldl (fun acc c => acc * 10 + (c.toNat - 48)) 0

/-- Embeds `clean_long_numeric`.  `none` stands for the `None`/NaN input
case; otherwise the argument is the `str()` rendering of the value. -/
def clean_long_numeric (value : Option String) : Option ℚ :=
  match value with
  | none => none
  | some s =>
    let raw := digitsOf s
    if raw.length < 5 then none
    else
      let first6 : Option ℕ :=
        if raw.length ≥ 6 then some (natOfDigits (raw.take 6)) else none
      let first5 : ℕ := natOfDigits (raw.take 5)
      match first6 with
      | some f6 =>
        if 10000 ≤ f6 ∧ f6 ≤ 200000 then some (f6 : ℚ)
        else if 10000 ≤ first5 ∧ first5 ≤ 200000 then some (first5 : ℚ)
        else none
      | none =>
        if 10000 ≤ first5 ∧ first5 ≤ 200000 then some (first5 : ℚ)
        else none

/-- `raw.str.fullmatch(r"\d+")`: nonempty and all digits. -/
def isDigitString (s : String) : Bool :=
  !s.data.isEmpty && s.data.all Char.isDigit

/-- Embeds `numeric_series`.  An entry of the raw column has abstract type
`α`; `strOf` is its `astype(str)` rendering, `parseNum` the default
`pd.to_numeric(..., errors="coerce")` parse, and `isTextual` the
`series.dtype == object` test.  Ratios are exact: the percentage guards
use rational arithmetic in place of the float means, which agree for
these thresholds. -/
def numeric_series {α : Type} (strOf : α → String) (parseNum : α → Option ℚ)
    (isTextual : Bool) (entries : List α) : List (Option ℚ) :=
  if isTextual = true ∧
      ((entries.countP fun e => isDigitString (strOf e) : ℚ)
        / (entries.length : ℚ) > 4/5) ∧
      ((entries.countP fun e => decide ((strOf e).length > 10) : ℚ)
        / (entries.length : ℚ) > 1/5)
  then entries.map fun e => clean_long_numeric (some (strOf e))
  else entries.map parseNum

/-! ### Canonical flow records (backend/main.py, _normalize_flow / load_flow) -/

/-- The three administrative levels of the flow endpoints. -/
inductive Level
  | state
  | county
  | congress
deriving DecidableEq

/-- Canonical flow record shape produced by `_normalize_flow`; every column
is nullable (pandas NA / NaN modelled as `none`). -/
structure FlowRecord where
  origin_name : Option String
  dest_name : Option String
  origin_state : Option String
  dest_state : Option String
  origin_lat : Option ℚ
  origin_lon : Option ℚ
  dest_lat : Option ℚ
  dest_lon : Option ℚ
  amount : Option ℚ
  agency : Option String
  industry : Option String
  year : Option ℤ
deriving DecidableEq

/-- Embeds the post-normalization cleaning of `load_flow`:
`dropna` on the four coordinates and the amount, then keep rows with
`amount > 0` (a comparison against NA is false), then keep rows whose
origin name differs from the destination name (the pandas string
inequality is NA, hence a false mask entry, when either side is missing). -/
def clean_flow (rows : List FlowRecord) : List FlowRecord :=
  ((rows.filter fun r =>
      r.origin_lat.isSome && r.origin_lon.isSome && r.dest_lat.isSome &&
        r.dest_lon.isSome && r.amount.isSome).filter fun r =>
      match r.amount with
      | some a => decide (0 < a)
      | none => false).filter fun r =>
    match r.origin_name, r.dest_name with
    | some a, some b => decide (a ≠ b)
    | _, _ => false

/-- Embeds `_apply_flow_filters`: optional exact-match agency and industry
filters, an inclusive year range at the non-state levels, and a state
filter with the three directional modes. -/
def apply_flow_filters (df : List FlowRecord) (level : Level)
    (agency state direction industry : String)
    (year_start year_end : Option ℤ) : List FlowRecord :=
  let f1 := if agency ≠ "" ∧ agency ≠ "All"
    then df.filter fun r => decide (r.agency = some agency) else df
  let f2 := if industry ≠ "" ∧ industry ≠ "All"
    then f1.filter fun r => decide (r.industry = some industry) else f1
  let f3 :=
    if level ≠ Level.state then
      let g1 := match year_start with
        | some ys => f2.filter fun r =>
            match r.year with
            | some y => decide (ys ≤ y)
            | none => false
        | none => f2
      match year_end with
      | some ye => g1.filter fun r =>
          match r.year with
          | some y => decide (y ≤ ye)
          | none => false
      | none => g1
    else f2
  if state ≠ "" ∧ state ≠ "All" then
    let direction_key := direction.trim.toLower
    if direction_key = "origin" ∨ direction_key = "outflow" then
      f3.filter fun r => decide (r.origin_state = some state)
    else if direction_key = "destination" ∨ direction_key = "inflow" then
      f3.filter fun r => decide (r.dest_state = some state)
    else
      f3.filter fun r =>
        decide (r.origin_state = some state) || decide (r.dest_state = some state)
  else f3

/-- The 8-tuple the aggregation groups on. -/
structure FlowKey where
  origin_name : Option String
  dest_name : Option String
  origin_state : Option String
  dest_state : Option String
  origin_lat : Option ℚ
  origin_lon : Option ℚ
  dest_lat : Option ℚ
  dest_lon : Option ℚ
deriving DecidableEq

def flowKey (r : FlowRecord) : FlowKey :=
  ⟨r.origin_name, r.dest_name, r.origin_state, r.dest_state,
   r.origin_lat, r.origin_lon, r.dest_lat, r.dest_lon⟩

/-- The distinct group keys of the `groupby` (`dropna=False` keeps NA
keys; the enumeration order is irrelevant as the rows are re-sorted). -/
def groupKeys (rows : List FlowRecord) : List FlowKey :=
  (rows.map flowKey).dedup

def amountOf (r : FlowRecord) : ℚ := r.amount.getD 0

/-- `amount_sum` of one group of the `groupby`. -/
def groupAmount (rows : List FlowRecord) (k : FlowKey) : ℚ :=
  ((rows.filter fun r => decide (flowKey r = k)).map amountOf).sum

/-- `record_count` of one group of the `groupby`. -/
def groupCount (rows : List FlowRecord) (k : FlowKey) : ℕ :=
  (rows.filter fun r => decide (flowKey r = k)).length

/-- One row of the `agency_group` table (grouping on key plus agency). -/
structure AgencyRow where
  key : FlowKey
  agency : Option String
  amount : ℚ
deriving DecidableEq

def pairAmount (rows : List FlowRecord) (p : FlowKey × Option String) : ℚ :=
  ((rows.filter fun r =>
      decide (flowKey r = p.1) && decide (r.agency = p.2)).map amountOf).sum

/-- The `agency_group` table: the filtered rows grouped on the 8 key
fields plus the agency, with summed amounts. -/
def agency_group (rows : List FlowRecord) : List AgencyRow :=
  ((rows.map fun r => (flowKey r, r.agency)).dedup).map fun p =>
    AgencyRow.mk p.1 p.2 (pairAmount rows p)

/-- Descending order on summed amount, used by
`sort_values(by="amount", ascending=False)`. -/
def agencyDesc (a b : AgencyRow) : Prop := b.amount ≤ a.amount

instance : DecidableRel agencyDesc :=
  fun a b => inferInstanceAs (Decidable (b.amount ≤ a.amount))

instance : IsTotal AgencyRow agencyDesc :=
  ⟨fun a b => le_total b.amount a.amount⟩

instance : IsTrans AgencyRow agencyDesc :=
  ⟨fun _ _ _ h1 h2 => le_trans h2 h1⟩

def agency_group_sorted (rows : List FlowRecord) : List AgencyRow :=
  (agency_group rows).insertionSort agencyDesc

/-- `drop_duplicates(subset=group_fields)` after the descending sort:
the first row of the sorted agency-group table carrying the key, if any,
gives the representative agency of the group. -/
def top_agency (rows : List FlowRecord) (k : FlowKey) : Option (Option String) :=
  ((agency_group_sorted rows).find? fun e => decide (e.key = k)).map AgencyRow.agency

/-- Agency label of one aggregated edge: the literal filter value when an
agency filter was applied, otherwise the top contributing agency joined
back onto the group, with missing values filled with the placeholder. -/
def agency_label (rows : List FlowRecord) (agencyFilter : String)
    (k : FlowKey) : String :=
  if agencyFilter ≠ "" ∧ agencyFilter ≠ "All" then agencyFilter
  else
    match top_agency rows k with
    | some (some a) => a
    | _ => "Multiple Agencies"

/-- One row of the aggregated `grouped` table. -/
structure GroupedRow where
  key : FlowKey
  amount_sum : ℚ
  record_count : ℕ
deriving DecidableEq

/-- Descending order on `amount_sum`, used by
`sort_values(by="amount_sum", ascending=False)`. -/
def groupDesc (a b : GroupedRow) : Prop := b.amount_sum ≤ a.amount_sum

instance : DecidableRel groupDesc :=
  fun a b => inferInstanceAs (Decidable (b.amount_sum ≤ a.amount_sum))

instance : IsTotal GroupedRow groupDesc :=
  ⟨fun a b => le_total b.amount_sum a.amount_sum⟩

instance : IsTrans GroupedRow groupDesc :=
  ⟨fun _ _ _ h1 h2 => le_trans h2 h1⟩

/-- One element of the `flows` list returned by the `/api/flow` endpoint. -/
structure FlowEdge where
  key : FlowKey
  amount_sum : ℚ
  record_count : ℕ
  agency_label : String
  quintile : ℕ
  width : ℚ
deriving DecidableEq

/-- The payload returned by the `/api/flow` endpoint (stats omitted). -/
structure FlowResult where
  flows : List FlowEdge
  thresholds : List ℚ
deriving DecidableEq

/-- Embeds `flow_data`: filter the cached canonical records, group on the
8-tuple, resolve agency labels, sort descending by summed amount, compute
the quintile thresholds over all groups, then truncate to `limit`
(0 disables truncation; the endpoint default is 300). -/
def flow_data (rows : List FlowRecord) (level : Level)
    (agency state direction naics : String)
    (year_start year_end : Option ℤ) (limit : ℕ := 300) : FlowResult :=
  let filtered := apply_flow_filters (clean_flow rows) level agency state
    direction naics year_start year_end
  let grouped := (groupKeys filtered).map fun k =>
    GroupedRow.mk k (groupAmount filtered k) (groupCount filtered k)
  let sortedG := grouped.insertionSort groupDesc
  let all_amounts := sortedG.map fun g => some g.amount_sum
  let flow_thresholds := quantile_thresholds all_amounts
  let limited := if 0 < limit then sortedG.take limit else sortedG
  let flows := limited.map fun g =>
    let quintile := get_quintile (some g.amount_sum) flow_thresholds
    FlowEdge.mk g.key g.amount_sum g.record_count
      (agency_label filtered agency g.key) quintile
      (width_from_quintile (quintile : ℤ))
  FlowResult.mk flows flow_thresholds

/-! ### Year handling of the values endpoint (normalize_year_value / list_years) -/

/-- A raw cell of the `Year` column: missing, a numeric value that is a
whole number (Python ints and integral floats both render without a
decimal point), or a string. -/
inductive YearVal
  | intV (n : ℤ)
  | strV (s : String)
  | nullV
deriving DecidableEq

/-- Embeds `normalize_year_value`: missing maps to `None`; whole numbers
render as plain integers; anything else is `str(value).strip()`. -/
def normalize_year_value : YearVal → Option String
  | .nullV => none
  | .intV n => some (toString n)
  | .strV s => some s.trim

/-- `pd.unique`: first-occurrence order deduplication (seen-set form). -/
def pd_unique_go {α : Type} [DecidableEq α] : List α → List α → List α
  | [], _ => []
  | a :: t, seen =>
    if a ∈ seen then pd_unique_go t seen
    else a :: pd_unique_go t (a :: seen)

def pd_unique {α : Type} [DecidableEq α] (l : List α) : List α :=
  pd_unique_go l []

/-- The seen-set loop of `list_years`, skipping falsy (empty) and already
seen normalized year strings. -/
def list_years_loop : List YearVal → List String → List String
  | [], _ => []
  | raw :: rest, seen =>
    match normalize_year_value raw with
    | none => list_years_loop rest seen
    | some s =>
      if s = "" ∨ s ∈ seen then list_years_loop rest seen
      else s :: list_years_loop rest (s :: seen)

/-- Embeds `list_years` applied to the `Year` column of a table that has
one: `pd.unique(df[YEAR_COLUMN].dropna())` then the seen-set loop. -/
def list_years (col : List YearVal) : List String :=
  list_years_loop (pd_unique (col.filter fun v => decide (v ≠ YearVal.nullV))) []

/-- Embeds the year-selection step of the `values` endpoint.  A table row
is a `Year` cell plus an opaque payload; `hasYear` is the
`YEAR_COLUMN in df.columns` test; a missing or falsy selection falls back
to the last available year, and a non-falsy selection filters the rows
whose normalized year equals it exactly. -/
def select_year_rows {β : Type} (hasYear : Bool) (rows : List (YearVal × β))
    (yearArg : Option YearVal) : List (YearVal × β) :=
  if hasYear = true then
    let available_years := list_years (rows.map Prod.fst)
    let selected0 : Option String := yearArg.bind normalize_year_value
    let selected : Option String :=
      if (selected0 = none ∨ selected0 = some "") ∧ available_years ≠ [] then
        available_years.getLast?
      else selected0
    match selected with
    | some s =>
      if s = "" then rows
      else rows.filter fun r => decide (normalize_year_value r.1 = some s)
    | none => rows
  else rows

/-- The larger of two strings in lexicographic order (the order on their
character lists). -/
def lex_max (a b : String) : String :=
  if a.data < b.data then b else a

/-- Modelled from the spec words of claim C8 (for refutation): the default
year would be the lexicographically-last available year. -/
def lex_last_year (col : List YearVal) : Option String :=
  match list_years col with
  | [] => none
  | y :: ys => some (ys.foldl lex_max y)

/-! ### Error handling of the values endpoint (load_dataset / values) -/

/-- The keys of the `DATASETS` table. -/
def DATASET_KEYS : List String :=
  ["census", "contract_static", "gov_spending", "finra"]

/-- The `LEVELS` set. -/
def API_LEVELS : List String := ["state", "county", "congress"]

/-- `CENSUS_DERIVED_VARIABLES`: derived name, total column, subtracted
column. -/
def CENSUS_DERIVED_VARIABLES : List (String × String × String) :=
  [("Income >$50K", "# of household", "Income <$50K"),
   ("Income >$100K", "# of household", "Income <$100K"),
   ("Income >$200K", "# of household", "Income <$200K")]

def find_derived (varName : String) : Option (String × String) :=
  (CENSUS_DERIVED_VARIABLES.find? fun p => decide (p.1 = varName)).map Prod.snd

/-- A loaded table, abstracted to its column set for the resolution logic. -/
structure Table where
  columns : List String
deriving DecidableEq

/-- The error outcomes of the `values` endpoint: an `HTTPException(404)`
with its human-readable detail, or an uncaught `FileNotFoundError` from
`load_dataset` (which FastAPI surfaces as a server fault, not a 404). -/
inductive ApiError
  | notFound (detail : String)
  | fileNotFound (dataset : String) (level : String)
deriving DecidableEq

/-- Embeds the identifier checks, dataset load and variable resolution of
the `values` endpoint; `files` is the on-disk table store
(`none` = the spreadsheet for a valid key pair is absent). -/
def values_resolve (files : String → String → Option Table)
    (dataset level varName : String) : Except ApiError Table :=
  if dataset ∉ DATASET_KEYS then .error (.notFound "Unknown dataset")
  else if level ∉ API_LEVELS then .error (.notFound "Unknown level")
  else
    match files dataset level with
    | none => .error (.fileNotFound dataset level)
    | some df =>
      match (if dataset = "census" ∧ varName ∉ df.columns
        then find_derived varName else none) with
      | some (total_col, less_col) =>
        if total_col ∉ df.columns ∨ less_col ∉ df.columns then
          .error (.notFound "Unknown variable")
        else .ok (Table.mk (df.columns ++ [varName]))
      | none =>
        if varName ∉ df.columns then .error (.notFound "Unknown variable")
        else .ok df

/-! ### Sample data used by the witnesses -/

def sampleRecord : FlowRecord :=
  ⟨some "A", some "B", some "MD", some "VA", some 1, some 2, some 3,
   some 4, some 10, some "AgencyX", none, some 2020⟩

def sampleRecord2 : FlowRecord :=
  ⟨some "A", some "B", some "MD", some "VA", some 1, some 2, some 3,
   some 4, some 5, some "AgencyY", none, some 2020⟩

def sampleKey : FlowKey := flowKey sampleRecord

def sampleFiles : String → String → Option Table := fun dataset level =>
  if dataset = "census" ∧ level = "state" then
    some (Table.mk ["state", "Population"])
  else none

end Dashboard

namespace Dashboard

/-! ### Helper lemmas -/

theorem sorted_insertionSort_le (l : List ℚ) :
    (l.insertionSort (· ≤ ·)).Sorted (· ≤ ·) :=
  List.sorted_insertionSort _ l

theorem getD_mem_of_lt {s : List ℚ} {i : ℕ} (hi : i < s.length) :
    s.getD i 0 ∈ s := by
  rw [List.getD_eq_getElem _ _ hi]
  exact List.getElem_mem hi

theorem getD_le_getD_of_sorted {s : List ℚ} (hs : s.Sorted (· ≤ ·))
    {i j : ℕ} (hij : i ≤ j) (hj : j < s.length) :
    s.getD i 0 ≤ s.getD j 0 := by
  have hi : i < s.length := lt_of_le_of_lt hij hj
  rw [List.getD_eq_getElem _ _ hi, List.getD_eq_getElem _ _ hj]
  rcases lt_or_eq_of_le hij with h | h
  · exact List.pairwise_iff_getElem.mp hs i j hi hj h
  · subst h; exact le_refl _

theorem pct_eq_natIdx (s : List ℚ) (hs : s ≠ []) (k : ℕ) :
    pct s ((k : ℚ)/5) = s.getD (k * (s.length - 1) / 5) 0 := by
  have hlen : 1 ≤ s.length := List.length_pos.mpr hs
  have hcast : ((s.length : ℚ) - 1) = ((s.length - 1 : ℕ) : ℚ) := by
    push_cast [hlen]; ring
  have hval : ((k : ℚ)/5) * ((s.length : ℚ) - 1)
      = ((k * (s.length - 1) : ℕ) : ℚ) / ((5 : ℕ) : ℚ) := by
    rw [hcast]; push_cast; ring
  unfold pct
  rw [hval, Int.floor_toNat, Nat.floor_div_nat, Nat.floor_natCast]

theorem quantile_thresholds_of_ne (values : List (Option ℚ))
    (hne : values.filterMap id ≠ []) :
    quantile_thresholds values =
      [pct ((values.filterMap id).insertionSort (· ≤ ·)) (1/5),
       pct ((values.filterMap id).insertionSort (· ≤ ·)) (2/5),
       pct ((values.filterMap id).insertionSort (· ≤ ·)) (3/5),
       pct ((values.filterMap id).insertionSort (· ≤ ·)) (4/5)] := by
  unfold quantile_thresholds
  simp only [hne, if_false, ite_false]

theorem length_insertionSort_le (l : List ℚ) :
    (l.insertionSort (· ≤ ·)).length = l.length :=
  (List.perm_insertionSort _ l).length_eq

theorem mem_values_of_mem_sorted {values : List (Option ℚ)} {t : ℚ}
    (ht : t ∈ (values.filterMap id).insertionSort (· ≤ ·)) :
    some t ∈ values := by
  have h1 : t ∈ values.filterMap id := (List.mem_insertionSort _).mp ht
  rcases List.mem_filterMap.mp h1 with ⟨a, ha, hfa⟩
  have ha2 : a = some t := hfa
  exact ha2 ▸ ha

theorem sorted_four {a b c d : ℚ} (h1 : a ≤ b) (h2 : a ≤ c) (h3 : a ≤ d)
    (h4 : b ≤ c) (h5 : b ≤ d) (h6 : c ≤ d) :
    List.Sorted (· ≤ ·) [a, b, c, d] := by
  refine List.sorted_cons.mpr ⟨?_, List.sorted_cons.mpr ⟨?_,
    List.sorted_cons.mpr ⟨?_, List.sorted_singleton d⟩⟩⟩
  · intro y hy
    rcases List.mem_cons.mp hy with rfl | hy
    · exact h1
    rcases List.mem_cons.mp hy with rfl | hy
    · exact h2
    rcases List.mem_singleton.mp hy with rfl
    exact h3
  · intro y hy
    rcases List.mem_cons.mp hy with rfl | hy
    · exact h4
    rcases List.mem_singleton.mp hy with rfl
    exact h5
  · intro y hy
    rcases List.mem_singleton.mp hy with rfl
    exact h6

/-! ### Claim C1 -/

/-- Claim C1: `quantile_thresholds` drops the missing entries; if none
remain it returns `[0,0,0,0]`; otherwise it returns the 4 values at
nearest-rank indices `floor(p * (n-1))` for `p = 0.2, 0.4, 0.6, 0.8` of the
ascending sort of the remaining values, hence for every input with at
least one non-missing value the 4 returned values are non-decreasing and
each is a member of the input. -/
theorem quantile_thresholds_correct (values : List (Option ℚ)) :
    (values.filterMap id = [] → quantile_thresholds values = [0, 0, 0, 0]) ∧
    (values.filterMap id ≠ [] →
      quantile_thresholds values =
        [((values.filterMap id).insertionSort (· ≤ ·)).getD
            (1 * ((values.filterMap id).length - 1) / 5) 0,
         ((values.filterMap id).insertionSort (· ≤ ·)).getD
            (2 * ((values.filterMap id).length - 1) / 5) 0,
         ((values.filterMap id).insertionSort (· ≤ ·)).getD
            (3 * ((values.filterMap id).length - 1) / 5) 0,
         ((values.filterMap id).insertionSort (· ≤ ·)).getD
            (4 * ((values.filterMap id).length - 1) / 5) 0] ∧
      (quantile_thresholds values).length = 4 ∧
      (quantile_thresholds values).Sorted (· ≤ ·) ∧
      (∀ t ∈ quantile_thresholds values, some t ∈ values)) := by
  constructor
  · intro h
    unfold quantile_thresholds
    simp only [h, if_true, ite_true]
  · intro hne
    set clean := values.filterMap id with hclean
    set s := clean.insertionSort (· ≤ ·) with hsdef
    have hsne : s ≠ [] := by
      intro h
      have hlen0 : s.length = clean.length := length_insertionSort_le clean
      rw [h] at hlen0
      exact hne (List.eq_nil_of_length_eq_zero hlen0.symm)
    have hslen : s.length = clean.length := length_insertionSort_le clean
    have hlen1 : 1 ≤ s.length := List.length_pos.mpr hsne
    have hform : quantile_thresholds values =
        [s.getD (1 * (s.length - 1) / 5) 0, s.getD (2 * (s.length - 1) / 5) 0,
         s.getD (3 * (s.length - 1) / 5) 0, s.getD (4 * (s.length - 1) / 5) 0] := by
      rw [quantile_thresholds_of_ne values hne]
      have e1 : (1/5 : ℚ) = ((1 : ℕ) : ℚ)/5 := by norm_num
      have e2 : (2/5 : ℚ) = ((2 : ℕ) : ℚ)/5 := by norm_num
      have e3 : (3/5 : ℚ) = ((3 : ℕ) : ℚ)/5 := by norm_num
      have e4 : (4/5 : ℚ) = ((4 : ℕ) : ℚ)/5 := by norm_num
      rw [e1, e2, e3, e4, pct_eq_natIdx s hsne 1, pct_eq_natIdx s hsne 2,
        pct_eq_natIdx s hsne 3, pct_eq_natIdx s hsne 4]
    have hsorted : s.Sorted (· ≤ ·) := sorted_insertionSort_le clean
    have hidx : ∀ k : ℕ, k ≤ 5 → k * (s.length - 1) / 5 < s.length := by
      intro k hk
      have h1 : k * (s.length - 1) ≤ 5 * (s.length - 1) :=
        Nat.mul_le_mul_right _ hk
      have h2 : k * (s.length - 1) / 5 ≤ 5 * (s.length - 1) / 5 :=
        Nat.div_le_div_right h1
      have h3 : 5 * (s.length - 1) / 5 = s.length - 1 :=
        Nat.mul_div_cancel_left _ (by norm_num)
      have h4 : s.length - 1 < s.length := Nat.sub_lt hlen1 one_pos
      omega
    have hmono : ∀ k1 k2 : ℕ, k1 ≤ k2 →
        k1 * (s.length - 1) / 5 ≤ k2 * (s.length - 1) / 5 := by
      intro k1 k2 h
      exact Nat.div_le_div_right (Nat.mul_le_mul_right _ h)
    refine ⟨by rw [hform, hslen], ?_, ?_, ?_⟩
    · rw [hform]; rfl
    · rw [hform]
      have g12 := getD_le_getD_of_sorted hsorted (hmono 1 2 (by norm_num))
        (hidx 2 (by norm_num))
      have g23 := getD_le_getD_of_sorted hsorted (hmono 2 3 (by norm_num))
        (hidx 3 (by norm_num))
      have g34 := getD_le_getD_of_sorted hsorted (hmono 3 4 (by norm_num))
        (hidx 4 (by norm_num))
      have g13 := le_trans g12 g23
      have g14 := le_trans g13 g34
      have g24 := le_trans g23 g34
      exact sorted_four g12 g13 g14 g23 g24 g34
    · intro t ht
      rw [hform] at ht
      simp only [List.mem_cons, List.not_mem_nil, or_false] at ht
      have hmem : t ∈ s := by
        rcases ht with h | h | h | h <;> subst h <;>
          exact getD_mem_of_lt (hidx _ (by norm_num))
      exact mem_values_of_mem_sorted hmem

/-- Witness for claim C1 at the concrete input of spec section 8. -/
theorem quantile_thresholds_correct_witness :
    (quantile_thresholds
      [some 10, some 20, some 30, some 40, some (50:ℚ)]).Sorted (· ≤ ·) ∧
    ∀ t ∈ quantile_thresholds [some 10, some 20, some 30, some 40, some (50:ℚ)],
      some t ∈ [some 10, some 20, some 30, some 40, some (50:ℚ)] :=
  ⟨((quantile_thresholds_correct _).2 (by decide)).2.2.1,
   ((quantile_thresholds_correct _).2 (by decide)).2.2.2⟩

/-! ### Claim C2 -/

/-- Claim C2: `get_quintile` is 0 iff the value is missing; otherwise it is
the first 1-based index i with v at most threshold i, and 5 when v exceeds
all four thresholds; consequently it is monotone in v. -/
theorem get_quintile_correct (t0 t1 t2 t3 : ℚ) :
    get_quintile none [t0, t1, t2, t3] = 0 ∧
    (∀ v : ℚ, get_quintile (some v) [t0, t1, t2, t3] ≠ 0) ∧
    (∀ v : ℚ,
      (get_quintile (some v) [t0, t1, t2, t3] = 1 ↔ v ≤ t0) ∧
      (get_quintile (some v) [t0, t1, t2, t3] = 2 ↔ ¬ v ≤ t0 ∧ v ≤ t1) ∧
      (get_quintile (some v) [t0, t1, t2, t3] = 3 ↔
        ¬ v ≤ t0 ∧ ¬ v ≤ t1 ∧ v ≤ t2) ∧
      (get_quintile (some v) [t0, t1, t2, t3] = 4 ↔
        ¬ v ≤ t0 ∧ ¬ v ≤ t1 ∧ ¬ v ≤ t2 ∧ v ≤ t3) ∧
      (get_quintile (some v) [t0, t1, t2, t3] = 5 ↔
        ¬ v ≤ t0 ∧ ¬ v ≤ t1 ∧ ¬ v ≤ t2 ∧ ¬ v ≤ t3)) ∧
    (∀ v1 v2 : ℚ, v1 ≤ v2 →
      get_quintile (some v1) [t0, t1, t2, t3] ≤
        get_quintile (some v2) [t0, t1, t2, t3]) := by
  refine ⟨rfl, ?_, ?_, ?_⟩
  · intro v
    simp only [get_quintile, List.getD_cons_zero, List.getD_cons_succ]
    split_ifs <;> omega
  · intro v
    simp only [get_quintile, List.getD_cons_zero, List.getD_cons_succ]
    split_ifs <;> simp_all
  · intro v1 v2 h
    simp only [get_quintile, List.getD_cons_zero, List.getD_cons_succ]
    split_ifs <;> first | omega | linarith

/-- Witness for claim C2: monotonicity at a concrete value pair. -/
theorem get_quintile_correct_witness :
    get_quintile (some 15) [(10:ℚ), 20, 30, 40] ≤
      get_quintile (some 35) [(10:ℚ), 20, 30, 40] :=
  (get_quintile_correct 10 20 30 40).2.2.2 15 35 (by norm_num)

/-! ### Helper lemmas about the flow pipeline -/

theorem mem_clean_flow {rows : List FlowRecord} {r : FlowRecord}
    (h : r ∈ clean_flow rows) :
    r ∈ rows ∧ (∃ a, r.amount = some a ∧ 0 < a) ∧
      r.origin_lat.isSome = true ∧ r.origin_lon.isSome = true ∧
      r.dest_lat.isSome = true ∧ r.dest_lon.isSome = true ∧
      (∃ a b, r.origin_name = some a ∧ r.dest_name = some b ∧ a ≠ b) := by
  unfold clean_flow at h
  have h1 := List.mem_filter.mp h
  have h2 := List.mem_filter.mp h1.1
  have h3 := List.mem_filter.mp h2.1
  refine ⟨h3.1, ?_, ?_, ?_, ?_, ?_, ?_⟩
  · rcases hamt : r.amount with _ | a
    · rw [hamt] at h2; exact absurd h2.2 (by simp)
    · refine ⟨a, rfl, ?_⟩
      have := h2.2
      rw [hamt] at this
      exact of_decide_eq_true this
  · have := h3.2; simp only [Bool.and_eq_true] at this; exact this.1.1.1.1
  · have := h3.2; simp only [Bool.and_eq_true] at this; exact this.1.1.1.2
  · have := h3.2; simp only [Bool.and_eq_true] at this; exact this.1.1.2
  · have := h3.2; simp only [Bool.and_eq_true] at this; exact this.1.2
  · rcases hon : r.origin_name with _ | a
    · rw [hon] at h1; exact absurd h1.2 (by simp)
    · rcases hdn : r.dest_name with _ | b
      · rw [hon, hdn] at h1; exact absurd h1.2 (by simp)
      · refine ⟨a, b, rfl, rfl, ?_⟩
        have := h1.2
        rw [hon, hdn] at this
        exact of_decide_eq_true this

theorem apply_flow_filters_subset {df : List FlowRecord} {level : Level}
    {agency state direction industry : String}
    {year_start year_end : Option ℤ} {r : FlowRecord}
    (h : r ∈ apply_flow_filters df level agency state direction industry
        year_start year_end) : r ∈ df := by
  simp only [apply_flow_filters] at h
  repeat
    any_goals
      first
      | split at h
      | replace h := (List.mem_filter.mp h).1
  all_goals exact h

theorem sum_map_zero {κ : Type} (K : List κ) :
    (K.map fun _ => (0 : ℚ)).sum = 0 := by
  simp

theorem sum_map_add_pt {κ : Type} (K : List κ) (f g : κ → ℚ) :
    (K.map fun k => f k + g k).sum = (K.map f).sum + (K.map g).sum := by
  induction K with
  | nil => simp
  | cons b K ih => simp only [List.map_cons, List.sum_cons, ih]; ring

theorem sum_map_ite_single {κ : Type} [DecidableEq κ] :
    ∀ (K : List κ), K.Nodup → ∀ (k0 : κ), k0 ∈ K → ∀ (x : ℚ),
      (K.map fun k => if k0 = k then x else 0).sum = x := by
  intro K
  induction K with
  | nil => intro _ k0 hk0; cases hk0
  | cons b K ih =>
    intro hnd k0 hk0 x
    rcases List.mem_cons.mp hk0 with rfl | hmem
    · have hz : K.map (fun k => if k0 = k then x else 0) = K.map fun _ => 0 := by
        apply List.map_congr_left
        intro k hk
        have hne : k0 ≠ k := by
          rintro rfl
          exact (List.nodup_cons.mp hnd).1 hk
        simp [hne]
      rw [List.map_cons, List.sum_cons, hz, sum_map_zero, add_zero]
      simp
    · have hne : k0 ≠ b := by
        rintro rfl
        exact (List.nodup_cons.mp hnd).1 hmem
      simp only [List.map_cons, List.sum_cons, if_neg hne, zero_add]
      exact ih (List.nodup_cons.mp hnd).2 k0 hmem x

theorem sum_fiber {α κ : Type} [DecidableEq κ] (key : α → κ) (w : α → ℚ) :
    ∀ (l : List α) (K : List κ), K.Nodup → (∀ a ∈ l, key a ∈ K) →
      (K.map fun k => ((l.filter fun a => decide (key a = k)).map w).sum).sum
        = (l.map w).sum := by
  intro l
  induction l with
  | nil => intro K _ _; simp
  | cons a t ih =>
    intro K hnd hcov
    have hstep : ∀ k : κ,
        (((a :: t).filter fun x => decide (key x = k)).map w).sum
          = (if key a = k then w a else 0)
            + ((t.filter fun x => decide (key x = k)).map w).sum := by
      intro k
      by_cases h : key a = k
      · simp [List.filter_cons, h]
      · simp [List.filter_cons, h]
    have hcongr : (K.map fun k =>
        (((a :: t).filter fun x => decide (key x = k)).map w).sum)
        = K.map fun k => (if key a = k then w a else 0)
            + ((t.filter fun x => decide (key x = k)).map w).sum :=
      List.map_congr_left fun k _ => hstep k
    rw [hcongr, sum_map_add_pt,
      sum_map_ite_single K hnd (key a) (hcov a (List.mem_cons_self a t)) (w a),
      ih K hnd fun x hx => hcov x (List.mem_cons_of_mem a hx)]
    simp

theorem groupKeys_nodup (rows : List FlowRecord) : (groupKeys rows).Nodup :=
  List.nodup_dedup _

theorem flowKey_mem_groupKeys {rows : List FlowRecord} {r : FlowRecord}
    (h : r ∈ rows) : flowKey r ∈ groupKeys rows :=
  List.mem_dedup.mpr (List.mem_map_of_mem flowKey h)

theorem mem_groupKeys_exists {rows : List FlowRecord} {k : FlowKey}
    (h : k ∈ groupKeys rows) : ∃ r ∈ rows, flowKey r = k := by
  have := List.mem_dedup.mp h
  exact List.mem_map.mp this

theorem sum_groupAmount (rows : List FlowRecord) :
    ((groupKeys rows).map fun k => groupAmount rows k).sum
      = (rows.map amountOf).sum :=
  sum_fiber flowKey amountOf rows (groupKeys rows) (groupKeys_nodup rows)
    fun _ hr => flowKey_mem_groupKeys hr

/-! ### Claim C4 -/

/-- Claim C4: every canonical flow record surviving the post-normalization
cleaning has distinct origin and destination names, a strictly positive
amount, and all four coordinates present; consequently every aggregated
edge returned by the flow endpoint, at every level, filter combination and
limit, carries distinct names, present coordinates and a positive summed
amount. -/
theorem clean_flow_invariants :
    (∀ (rows : List FlowRecord) (r : FlowRecord), r ∈ clean_flow rows →
      (∃ a, r.amount = some a ∧ 0 < a) ∧
      r.origin_lat.isSome = true ∧ r.origin_lon.isSome = true ∧
      r.dest_lat.isSome = true ∧ r.dest_lon.isSome = true ∧
      r.origin_name ≠ r.dest_name) ∧
    (∀ (rows : List FlowRecord) (level : Level)
        (agency state direction naics : String)
        (year_start year_end : Option ℤ) (limit : ℕ) (e : FlowEdge),
      e ∈ (flow_data rows level agency state direction naics year_start
          year_end limit).flows →
      e.key.origin_name ≠ e.key.dest_name ∧ 0 < e.amount_sum ∧
      e.key.origin_lat.isSome = true ∧ e.key.origin_lon.isSome = true ∧
      e.key.dest_lat.isSome = true ∧ e.key.dest_lon.isSome = true) := by
  constructor
  · intro rows r h
    obtain ⟨-, hamt, hlat, hlon, hdlat, hdlon, a, b, ha, hb, hab⟩ :=
      mem_clean_flow h
    refine ⟨hamt, hlat, hlon, hdlat, hdlon, ?_⟩
    rw [ha, hb]
    intro hcontra
    exact hab (Option.some.inj hcontra)
  · intro rows level agency state direction naics year_start year_end limit e he
    simp only [flow_data, List.mem_map] at he
    obtain ⟨g, hg, hge⟩ := he
    set filtered := apply_flow_filters (clean_flow rows) level agency state
      direction naics year_start year_end with hfil
    have hgsorted : g ∈ ((groupKeys filtered).map fun k =>
        GroupedRow.mk k (groupAmount filtered k)
          (groupCount filtered k)).insertionSort groupDesc := by
      split at hg
      · exact List.mem_of_mem_take hg
      · exact hg
    have hggrouped := (List.mem_insertionSort groupDesc).mp hgsorted
    obtain ⟨k, hk, hkg⟩ := List.mem_map.mp hggrouped
    obtain ⟨r, hr, hrk⟩ := mem_groupKeys_exists hk
    have hrclean : r ∈ clean_flow rows := apply_flow_filters_subset hr
    obtain ⟨-, ⟨a0, ha0, ha0pos⟩, hlat, hlon, hdlat, hdlon, a, b, ha, hb, hab⟩ :=
      mem_clean_flow hrclean
    have hekey : e.key = k := by rw [← hge, ← hkg]
    have hkey : k = flowKey r := hrk.symm
    have hkfields : k.origin_name = r.origin_name ∧ k.dest_name = r.dest_name ∧
        k.origin_lat = r.origin_lat ∧ k.origin_lon = r.origin_lon ∧
        k.dest_lat = r.dest_lat ∧ k.dest_lon = r.dest_lon := by
      rw [hkey]; exact ⟨rfl, rfl, rfl, rfl, rfl, rfl⟩
    obtain ⟨hkon, hkdn, hklat, hklon, hkdlat, hkdlon⟩ := hkfields
    have hamt : e.amount_sum = groupAmount filtered k := by
      rw [← hge, ← hkg]
    refine ⟨?_, ?_, ?_, ?_, ?_, ?_⟩
    · rw [hekey, hkon, hkdn, ha, hb]
      intro hcontra
      exact hab (Option.some.inj hcontra)
    · rw [hamt]
      unfold groupAmount
      apply List.sum_pos
      · intro x hx
        obtain ⟨q, hq, hqx⟩ := List.mem_map.mp hx
        have hqfil := (List.mem_filter.mp hq).1
        have hqclean : q ∈ clean_flow rows := apply_flow_filters_subset hqfil
        obtain ⟨-, ⟨aq, haq, haqpos⟩, -⟩ := mem_clean_flow hqclean
        rw [← hqx]
        unfold amountOf
        rw [haq]
        exact haqpos
      · intro hnil
        have hrmem : r ∈ filtered.filter fun q => decide (flowKey q = k) :=
          List.mem_filter.mpr ⟨hr, by rw [hrk]; exact decide_eq_true rfl⟩
        have : (amountOf r) ∈ (filtered.filter fun q =>
            decide (flowKey q = k)).map amountOf := List.mem_map_of_mem _ hrmem
        rw [hnil] at this
        cases this
    · rw [hekey, hklat]; exact hlat
    · rw [hekey, hklon]; exact hlon
    · rw [hekey, hkdlat]; exact hdlat
    · rw [hekey, hkdlon]; exact hdlon

/-- Witness for claim C4 at concrete data. -/
theorem clean_flow_invariants_witness :
    ((∃ a, sampleRecord.amount = some a ∧ 0 < a) ∧
      sampleRecord.origin_lat.isSome = true ∧
      sampleRecord.origin_lon.isSome = true ∧
      sampleRecord.dest_lat.isSome = true ∧
      sampleRecord.dest_lon.isSome = true ∧
      sampleRecord.origin_name ≠ sampleRecord.dest_name) ∧
    ∀ e ∈ (flow_data [sampleRecord] Level.county "All" "All" "All" "All"
        none none 300).flows,
      e.key.origin_name ≠ e.key.dest_name ∧ 0 < e.amount_sum :=
  ⟨clean_flow_invariants.1 [sampleRecord] sampleRecord (by decide),
   fun e he =>
    ⟨(clean_flow_invariants.2 [sampleRecord] Level.county "All" "All" "All"
        "All" none none 300 e he).1,
     (clean_flow_invariants.2 [sampleRecord] Level.county "All" "All" "All"
        "All" none none 300 e he).2.1⟩⟩

/-! ### Claim C5 -/

/-- Claim C5: for every level and filter combination, with no result limit
the summed amounts of the aggregated flow edges conserve the total amount
of the filtered canonical records. -/
theorem flow_total_amount_conserved (rows : List FlowRecord) (level : Level)
    (agency state direction naics : String)
    (year_start year_end : Option ℤ) :
    (((flow_data rows level agency state direction naics year_start
        year_end 0).flows).map FlowEdge.amount_sum).sum
      = ((apply_flow_filters (clean_flow rows) level agency state direction
          naics year_start year_end).map amountOf).sum := by
  set filtered := apply_flow_filters (clean_flow rows) level agency state
    direction naics year_start year_end with hfil
  simp only [flow_data, lt_irrefl, if_false, ite_false, List.map_map]
  have hcomp : (FlowEdge.amount_sum ∘ fun g : GroupedRow =>
      FlowEdge.mk g.key g.amount_sum g.record_count
        (agency_label filtered agency g.key)
        (get_quintile (some g.amount_sum)
          (quantile_thresholds ((((groupKeys filtered).map fun k =>
            GroupedRow.mk k (groupAmount filtered k)
              (groupCount filtered k)).insertionSort groupDesc).map
                fun g => some g.amount_sum)))
        (width_from_quintile ((get_quintile (some g.amount_sum)
          (quantile_thresholds ((((groupKeys filtered).map fun k =>
            GroupedRow.mk k (groupAmount filtered k)
              (groupCount filtered k)).insertionSort groupDesc).map
                fun g => some g.amount_sum))) : ℤ)))
      = fun g : GroupedRow => g.amount_sum := rfl
  rw [hcomp]
  have hperm : (((groupKeys filtered).map fun k =>
      GroupedRow.mk k (groupAmount filtered k)
        (groupCount filtered k)).insertionSort groupDesc).Perm
      ((groupKeys filtered).map fun k =>
        GroupedRow.mk k (groupAmount filtered k) (groupCount filtered k)) :=
    List.perm_insertionSort groupDesc _
  have hsum := (hperm.map fun g : GroupedRow => g.amount_sum).sum_eq
  rw [hsum, List.map_map]
  have hcomp2 : ((fun g : GroupedRow => g.amount_sum) ∘ fun k =>
      GroupedRow.mk k (groupAmount filtered k) (groupCount filtered k))
      = fun k => groupAmount filtered k := rfl
  rw [hcomp2]
  exact sum_groupAmount filtered

/-! ### Claim C7 -/

/-- Claim C7: the flow thresholds are computed before result limiting, so
they agree between any two limits and every edge of a limited result is an
edge of the unlimited result with identical fields (in particular an
identical quintile); the edges are sorted descending by summed amount and
truncated to the limit, whose default is 300, a limit of 0 returning all
edges. -/
theorem flow_limit_stability (rows : List FlowRecord) (level : Level)
    (agency state direction naics : String)
    (year_start year_end : Option ℤ) :
    (∀ limit : ℕ,
      (flow_data rows level agency state direction naics year_start
          year_end limit).thresholds
        = (flow_data rows level agency state direction naics year_start
          year_end 0).thresholds) ∧
    (∀ limit : ℕ, 0 < limit →
      (flow_data rows level agency state direction naics year_start
          year_end limit).flows
        = ((flow_data rows level agency state direction naics year_start
          year_end 0).flows).take limit) ∧
    ((flow_data rows level agency state direction naics year_start
        year_end).flows
      = ((flow_data rows level agency state direction naics year_start
        year_end 0).flows).take 300) ∧
    (∀ limit : ℕ,
      ((flow_data rows level agency state direction naics year_start
          year_end limit).flows).Pairwise
        fun e1 e2 => e2.amount_sum ≤ e1.amount_sum) ∧
    (∀ (limit : ℕ) (e : FlowEdge),
      e ∈ (flow_data rows level agency state direction naics year_start
          year_end limit).flows →
      e ∈ (flow_data rows level agency state direction naics year_start
          year_end 0).flows) := by
  have hflows : ∀ limit : ℕ, 0 < limit →
      (flow_data rows level agency state direction naics year_start
          year_end limit).flows
        = ((flow_data rows level agency state direction naics year_start
          year_end 0).flows).take limit := by
    intro limit h
    simp only [flow_data, h, if_true, lt_self_iff_false, if_false, ite_true,
      ite_false, List.map_take]
  refine ⟨fun _ => rfl, hflows, hflows 300 (by norm_num), ?_, ?_⟩
  · intro limit
    simp only [flow_data]
    rw [List.pairwise_map]
    have hsorted := List.sorted_insertionSort groupDesc
      ((groupKeys (apply_flow_filters (clean_flow rows) level agency state
        direction naics year_start year_end)).map fun k =>
          GroupedRow.mk k
            (groupAmount (apply_flow_filters (clean_flow rows) level agency
              state direction naics year_start year_end) k)
            (groupCount (apply_flow_filters (clean_flow rows) level agency
              state direction naics year_start year_end) k))
    split
    · exact List.Pairwise.sublist (List.take_sublist _ _) hsorted
    · exact hsorted
  · intro limit e he
    simp only [flow_data] at he ⊢
    rcases List.mem_map.mp he with ⟨g, hg, hge⟩
    refine List.mem_map.mpr ⟨g, ?_, hge⟩
    simp only [lt_self_iff_false, if_false, ite_false]
    split at hg
    · exact List.mem_of_mem_take hg
    · exact hg

/-- Witness for claim C7 at concrete data and limit 1. -/
theorem flow_limit_stability_witness :
    (flow_data [sampleRecord] Level.county "All" "All" "All" "All"
        none none 1).flows
      = ((flow_data [sampleRecord] Level.county "All" "All" "All" "All"
        none none 0).flows).take 1 :=
  (flow_limit_stability [sampleRecord] Level.county "All" "All" "All" "All"
    none none).2.1 1 (by norm_num)

/-! ### Claim C10 -/

theorem get_quintile_some_bounds (v : ℚ) (t : List ℚ) :
    1 ≤ get_quintile (some v) t ∧ get_quintile (some v) t ≤ 5 := by
  simp only [get_quintile]
  split_ifs <;> omega

theorem width_getD_of_bounds {w : ℤ} (h1 : 1 ≤ w) (h5 : w ≤ 5) :
    (FLOW_WIDTH_BY_QUINTILE w).getD 1 = 1/2 ∨
    (FLOW_WIDTH_BY_QUINTILE w).getD 1 = 4/5 ∨
    (FLOW_WIDTH_BY_QUINTILE w).getD 1 = 6/5 ∨
    (FLOW_WIDTH_BY_QUINTILE w).getD 1 = 9/5 ∨
    (FLOW_WIDTH_BY_QUINTILE w).getD 1 = 5/2 := by
  interval_cases w <;> norm_num [FLOW_WIDTH_BY_QUINTILE]

theorem width_from_quintile_nat_bounds {q : ℕ} (h1 : 1 ≤ q) (h5 : q ≤ 5) :
    FLOW_WIDTH_BY_QUINTILE (q : ℤ) = some (width_from_quintile (q : ℤ)) ∧
    (width_from_quintile (q : ℤ) = 1/2 ∨ width_from_quintile (q : ℤ) = 4/5 ∨
      width_from_quintile (q : ℤ) = 6/5 ∨ width_from_quintile (q : ℤ) = 9/5 ∨
      width_from_quintile (q : ℤ) = 5/2) := by
  interval_cases q <;>
    refine ⟨?_, ?_⟩ <;>
      norm_num [FLOW_WIDTH_BY_QUINTILE, width_from_quintile]

set_option maxHeartbeats 1000000 in
/-- Claim C10: `width_from_quintile` clamps every integer into `[1,5]`
before the table lookup, and every edge returned by the flow endpoint
carries a quintile in `{1,...,5}` and the fixed table width for that
quintile, one of `{0.5, 0.8, 1.2, 1.8, 2.5}`. -/
theorem flow_width_correct :
    (∀ z : ℤ,
      1 ≤ max 1 (min 5 (if z ≠ 0 then z else 1)) ∧
      max 1 (min 5 (if z ≠ 0 then z else 1)) ≤ 5 ∧
      width_from_quintile z
        = (FLOW_WIDTH_BY_QUINTILE (max 1 (min 5 (if z ≠ 0 then z else 1)))).getD 1 ∧
      (width_from_quintile z = 1/2 ∨ width_from_quintile z = 4/5 ∨
        width_from_quintile z = 6/5 ∨ width_from_quintile z = 9/5 ∨
        width_from_quintile z = 5/2)) ∧
    (∀ (rows : List FlowRecord) (level : Level)
        (agency state direction naics : String)
        (year_start year_end : Option ℤ) (limit : ℕ) (e : FlowEdge),
      e ∈ (flow_data rows level agency state direction naics year_start
          year_end limit).flows →
      1 ≤ e.quintile ∧ e.quintile ≤ 5 ∧
      FLOW_WIDTH_BY_QUINTILE (e.quintile : ℤ) = some e.width ∧
      (e.width = 1/2 ∨ e.width = 4/5 ∨ e.width = 6/5 ∨ e.width = 9/5 ∨
        e.width = 5/2)) := by
  constructor
  · intro z
    have h1 : (1 : ℤ) ≤ max 1 (min 5 (if z ≠ 0 then z else 1)) :=
      le_max_left _ _
    have h5 : max 1 (min 5 (if z ≠ 0 then z else 1)) ≤ 5 :=
      max_le (by norm_num) (min_le_left _ _)
    refine ⟨h1, h5, rfl, ?_⟩
    exact width_getD_of_bounds h1 h5
  · intro rows level agency state direction naics year_start year_end limit e he
    simp only [flow_data, List.mem_map] at he
    obtain ⟨g, hg, hge⟩ := he
    subst hge
    have hbounds := get_quintile_some_bounds g.amount_sum
      (quantile_thresholds ((((groupKeys (apply_flow_filters (clean_flow
        rows) level agency state direction naics year_start
          year_end)).map fun k =>
        GroupedRow.mk k
          (groupAmount (apply_flow_filters (clean_flow rows) level agency
            state direction naics year_start year_end) k)
          (groupCount (apply_flow_filters (clean_flow rows) level agency
            state direction naics year_start year_end) k)).insertionSort
              groupDesc).map fun g => some g.amount_sum))
    exact ⟨hbounds.1, hbounds.2,
      (width_from_quintile_nat_bounds hbounds.1 hbounds.2).1,
      (width_from_quintile_nat_bounds hbounds.1 hbounds.2).2⟩

/-! ### Helper lemmas for agency label resolution -/

theorem find?_pairwise_rel {α : Type} {R : α → α → Prop} {p : α → Bool} :
    ∀ {l : List α}, l.Pairwise R → ∀ {x : α}, l.find? p = some x →
      ∀ y ∈ l, p y = true → x = y ∨ R x y := by
  intro l
  induction l with
  | nil => intro _ x hx; cases hx
  | cons a t ih =>
    intro hpw x hfind y hy hpy
    by_cases hpa : p a
    · rw [List.find?_cons_of_pos t hpa] at hfind
      have hxa : x = a := (Option.some.inj hfind).symm
      subst hxa
      rcases List.mem_cons.mp hy with rfl | hyt
      · exact Or.inl rfl
      · exact Or.inr ((List.pairwise_cons.mp hpw).1 y hyt)
    · rw [List.find?_cons_of_neg t hpa] at hfind
      rcases List.mem_cons.mp hy with rfl | hyt
      · exact absurd hpy hpa
      · exact ih (List.pairwise_cons.mp hpw).2 hfind y hyt hpy

theorem agency_pair_mem {rows : List FlowRecord} {r : FlowRecord}
    (hr : r ∈ rows) :
    AgencyRow.mk (flowKey r) r.agency
        (pairAmount rows (flowKey r, r.agency)) ∈ agency_group rows := by
  unfold agency_group
  exact List.mem_map.mpr ⟨(flowKey r, r.agency),
    List.mem_dedup.mpr (List.mem_map_of_mem _ hr), rfl⟩

theorem mem_agency_group_elim {rows : List FlowRecord} {t : AgencyRow}
    (ht : t ∈ agency_group rows) :
    ∃ r ∈ rows, flowKey r = t.key ∧ r.agency = t.agency ∧
      t.amount = pairAmount rows (t.key, t.agency) := by
  unfold agency_group at ht
  obtain ⟨p, hp, hpt⟩ := List.mem_map.mp ht
  obtain ⟨r, hr, hrp⟩ := List.mem_map.mp (List.mem_dedup.mp hp)
  subst hpt
  exact ⟨r, hr, congrArg Prod.fst hrp, congrArg Prod.snd hrp, rfl⟩

theorem pairAmount_eq_filter {rows : List FlowRecord} {k : FlowKey}
    {l : List FlowRecord}
    (hfil : rows.filter (fun r => decide (flowKey r = k)) = l)
    (aOpt : Option String) :
    pairAmount rows (k, aOpt)
      = ((l.filter fun r => decide (r.agency = aOpt)).map amountOf).sum := by
  unfold pairAmount
  have h1 : (fun r : FlowRecord =>
      decide (flowKey r = (k, aOpt).1) && decide (r.agency = (k, aOpt).2))
      = fun r : FlowRecord =>
        decide (r.agency = aOpt) && decide (flowKey r = k) := by
    funext r
    exact Bool.and_comm _ _
  rw [h1, ← List.filter_filter, hfil]

theorem agency_group_key_cases {rows : List FlowRecord} {k : FlowKey}
    {r1 r2 : FlowRecord}
    (hfil : rows.filter (fun r => decide (flowKey r = k)) = [r1, r2])
    {t : AgencyRow} (ht : t ∈ agency_group rows) (htk : t.key = k) :
    (t.agency = r1.agency ∧ t.amount = pairAmount rows (k, r1.agency)) ∨
    (t.agency = r2.agency ∧ t.amount = pairAmount rows (k, r2.agency)) := by
  obtain ⟨r, hr, hrk, hra, hamt⟩ := mem_agency_group_elim ht
  have hrfil : r ∈ rows.filter fun q => decide (flowKey q = k) :=
    List.mem_filter.mpr ⟨hr, by rw [hrk, htk]; exact decide_eq_true rfl⟩
  rw [hfil] at hrfil
  rw [htk] at hamt
  rcases List.mem_cons.mp hrfil with rfl | hrfil2
  · left
    exact ⟨hra.symm, by rw [hamt, ← hra]⟩
  · rcases List.mem_cons.mp hrfil2 with rfl | hnil
    · right
      exact ⟨hra.symm, by rw [hamt, ← hra]⟩
    · cases hnil

theorem flow_edge_key_mem {rows : List FlowRecord} {level : Level}
    {agency state direction naics : String} {year_start year_end : Option ℤ}
    {limit : ℕ} {e : FlowEdge}
    (he : e ∈ (flow_data rows level agency state direction naics year_start
        year_end limit).flows) :
    e.key ∈ groupKeys (apply_flow_filters (clean_flow rows) level agency
        state direction naics year_start year_end) ∧
    e.agency_label = agency_label (apply_flow_filters (clean_flow rows)
        level agency state direction naics year_start year_end) agency
        e.key := by
  simp only [flow_data, List.mem_map] at he
  obtain ⟨g, hg, hge⟩ := he
  subst hge
  refine ⟨?_, rfl⟩
  have hgg : g ∈ (groupKeys (apply_flow_filters (clean_flow rows) level
      agency state direction naics year_start year_end)).map fun k =>
        GroupedRow.mk k
          (groupAmount (apply_flow_filters (clean_flow rows) level agency
            state direction naics year_start year_end) k)
          (groupCount (apply_flow_filters (clean_flow rows) level agency
            state direction naics year_start year_end) k) := by
    apply (List.mem_insertionSort groupDesc).mp
    split at hg
    · exact List.mem_of_mem_take hg
    · exact hg
  obtain ⟨k, hk, hkg⟩ := List.mem_map.mp hgg
  show g.key ∈ _
  rw [← hkg]
  exact hk

theorem top_agency_isSome {rows : List FlowRecord} {k : FlowKey}
    (h : k ∈ groupKeys rows) :
    ∃ t : AgencyRow,
      (agency_group_sorted rows).find? (fun e => decide (e.key = k))
        = some t := by
  obtain ⟨r, hr, hrk⟩ := mem_groupKeys_exists h
  have hE := agency_pair_mem hr
  rw [hrk] at hE
  have hsome : ((agency_group_sorted rows).find?
      fun e => decide (e.key = k)).isSome := by
    rw [List.find?_isSome]
    exact ⟨_, (List.mem_insertionSort agencyDesc).mpr hE,
      decide_eq_true rfl⟩
  exact Option.isSome_iff_exists.mp hsome

/-! ### Claim C6 -/

/-- Claim C6: with an agency filter applied every returned edge is labeled
with that agency; without one the edge is labeled by the first entry of the
sorted-descending agency-group table carrying the key (which has the
largest amount contribution, exact ties broken by first occurrence), the
placeholder standing in when the joined agency value is missing; for a
group of exactly two records with distinct non-missing agencies and
unequal amounts the label is the higher contributor. -/
theorem agency_label_correct :
    (∀ (rows : List FlowRecord) (level : Level)
        (agency state direction naics : String)
        (year_start year_end : Option ℤ) (limit : ℕ) (e : FlowEdge),
      agency ≠ "" ∧ agency ≠ "All" →
      e ∈ (flow_data rows level agency state direction naics year_start
          year_end limit).flows →
      e.agency_label = agency) ∧
    (∀ (rows : List FlowRecord) (level : Level)
        (state direction naics : String)
        (year_start year_end : Option ℤ) (limit : ℕ) (e : FlowEdge),
      e ∈ (flow_data rows level "All" state direction naics year_start
          year_end limit).flows →
      ∃ t : AgencyRow,
        (agency_group_sorted (apply_flow_filters (clean_flow rows) level
            "All" state direction naics year_start year_end)).find?
          (fun x => decide (x.key = e.key)) = some t ∧
        e.agency_label = t.agency.getD "Multiple Agencies" ∧
        ∀ y ∈ agency_group_sorted (apply_flow_filters (clean_flow rows)
            level "All" state direction naics year_start year_end),
          y.key = e.key → y.amount ≤ t.amount) ∧
    (∀ (rows : List FlowRecord) (k : FlowKey) (r1 r2 : FlowRecord)
        (a1 a2 : String),
      rows.filter (fun r => decide (flowKey r = k)) = [r1, r2] →
      r1.agency = some a1 → r2.agency = some a2 → a1 ≠ a2 →
      amountOf r2 < amountOf r1 →
      agency_label rows "All" k = a1) := by
  have hcondAll : ¬(("All" : String) ≠ "" ∧ ("All" : String) ≠ "All") :=
    fun h => h.2 rfl
  refine ⟨?_, ?_, ?_⟩
  · intro rows level agency state direction naics year_start year_end limit
      e hag he
    rw [(flow_edge_key_mem he).2]
    unfold agency_label
    rw [if_pos hag]
  · intro rows level state direction naics year_start year_end limit e he
    obtain ⟨hkmem, hlab⟩ := flow_edge_key_mem he
    obtain ⟨t, hfindt⟩ := top_agency_isSome hkmem
    refine ⟨t, hfindt, ?_, ?_⟩
    · rw [hlab]
      unfold agency_label top_agency
      rw [if_neg hcondAll, hfindt]
      simp only [Option.map_some']
      cases t.agency <;> rfl
    · intro y hy hyk
      have hsorted := List.sorted_insertionSort agencyDesc
        (agency_group (apply_flow_filters (clean_flow rows) level "All"
          state direction naics year_start year_end))
      have := find?_pairwise_rel hsorted hfindt y hy (decide_eq_true hyk)
      rcases this with rfl | hrel
      · exact le_refl _
      · exact hrel
  · intro rows k r1 r2 a1 a2 hfil ha1 ha2 hne hlt
    have hr1fil : r1 ∈ rows.filter fun r => decide (flowKey r = k) := by
      rw [hfil]; exact List.mem_cons_self _ _
    have hr1 : r1 ∈ rows := (List.mem_filter.mp hr1fil).1
    have hk1 : flowKey r1 = k :=
      of_decide_eq_true (List.mem_filter.mp hr1fil).2
    have hne21 : (some a2 : Option String) ≠ some a1 := by
      intro hc; exact hne (Option.some.inj hc).symm
    have hne12 : (some a1 : Option String) ≠ some a2 := by
      intro hc; exact hne (Option.some.inj hc)
    have hP1 : pairAmount rows (k, some a1) = amountOf r1 := by
      rw [pairAmount_eq_filter hfil (some a1)]
      simp [List.filter_cons, ha1, ha2, hne21]
    have hP2 : pairAmount rows (k, some a2) = amountOf r2 := by
      rw [pairAmount_eq_filter hfil (some a2)]
      simp [List.filter_cons, ha1, ha2, hne12]
    have hE1mem : AgencyRow.mk k (some a1)
        (pairAmount rows (k, some a1)) ∈ agency_group rows := by
      have h0 := agency_pair_mem hr1
      rw [hk1, ha1] at h0
      exact h0
    have hkmem : k ∈ groupKeys rows := by
      rw [← hk1]
      exact flowKey_mem_groupKeys hr1
    obtain ⟨t, hfindt⟩ := top_agency_isSome hkmem
    have htmem : t ∈ agency_group_sorted rows :=
      List.mem_of_find?_eq_some hfindt
    have hpt := List.find?_some hfindt
    have htk : t.key = k := of_decide_eq_true hpt
    have htg : t ∈ agency_group rows :=
      (List.mem_insertionSort agencyDesc).mp htmem
    have hlabel : agency_label rows "All" k
        = t.agency.getD "Multiple Agencies" := by
      unfold agency_label top_agency
      rw [if_neg hcondAll, hfindt]
      simp only [Option.map_some']
      cases t.agency <;> rfl
    rcases agency_group_key_cases hfil htg htk with ⟨hag, -⟩ | ⟨hag, hamt⟩
    · rw [hlabel, hag, ha1]
      rfl
    · exfalso
      have htag2 : t.agency = some a2 := by rw [hag, ha2]
      have htamt : t.amount = amountOf r2 := by
        rw [hamt, ha2, hP2]
      have hE1sorted := (List.mem_insertionSort agencyDesc).mpr hE1mem
      have hsorted := List.sorted_insertionSort agencyDesc (agency_group rows)
      have hmax := find?_pairwise_rel hsorted hfindt _ hE1sorted
        (decide_eq_true rfl)
      rcases hmax with heq | hrel
      · have : (some a1 : Option String) = some a2 := by
          rw [← htag2, heq]
        exact hne12 this
      · have h1 : pairAmount rows (k, some a1) ≤ t.amount := hrel
        rw [htamt, hP1] at h1
        exact absurd h1 (not_le.mpr hlt)

/-- Witness for claim C6: two records with the same key, distinct agencies
and unequal amounts label the edge with the higher contributor. -/
theorem agency_label_correct_witness :
    agency_label [sampleRecord, sampleRecord2] "All" sampleKey = "AgencyX" :=
  agency_label_correct.2.2 [sampleRecord, sampleRecord2] sampleKey
    sampleRecord sampleRecord2 "AgencyX" "AgencyY" (by decide) rfl rfl
    (by decide) (by decide)

/-- Witness for claim C10 at concrete data. -/
theorem flow_width_correct_witness :
    ∀ e ∈ (flow_data [sampleRecord] Level.county "All" "All" "All" "All"
        none none 300).flows,
      1 ≤ e.quintile ∧ e.quintile ≤ 5 ∧
      FLOW_WIDTH_BY_QUINTILE (e.quintile : ℤ) = some e.width :=
  fun e he =>
    ⟨(flow_width_correct.2 [sampleRecord] Level.county "All" "All" "All"
        "All" none none 300 e he).1,
     (flow_width_correct.2 [sampleRecord] Level.county "All" "All" "All"
        "All" none none 300 e he).2.1,
     (flow_width_correct.2 [sampleRecord] Level.county "All" "All" "All"
        "All" none none 300 e he).2.2.1⟩

/-! ### Helper lemmas for the value normalizer -/

theorem digitsOf_mk_digitsOf (s : String) :
    digitsOf (String.mk (digitsOf s)) = digitsOf s := by
  unfold digitsOf
  show (s.data.filter Char.isDigit).filter Char.isDigit
    = s.data.filter Char.isDigit
  rw [List.filter_filter]
  have h : (fun a => Char.isDigit a && Char.isDigit a)
      = fun a => Char.isDigit a := by
    funext a
    exact Bool.and_self _
  rw [h]

/-! ### Claim C3 -/

/-- Claim C3: the mangled-long-number path of the value normalizer fires
exactly when the column is textual with strictly more than 80 percent
pure-digit entries and strictly more than 20 percent entries longer than
10 characters; on that path non-digit characters are stripped, fewer than
5 digits is missing, and otherwise the 6-digit then the 5-digit prefix is
tried against `[10000, 200000]`, so a recovered value always lies in that
range — an 11-digit pure-digit string with a valid 5-digit prefix yields
the recovered leading segment, never the raw long integer. -/
theorem numeric_series_correct :
    (∀ (α : Type) (strOf : α → String) (parseNum : α → Option ℚ)
        (entries : List α),
      numeric_series strOf parseNum false entries = entries.map parseNum ∧
      (((entries.countP fun e => isDigitString (strOf e) : ℚ)
          / (entries.length : ℚ) > 4/5) →
        ((entries.countP fun e => decide ((strOf e).length > 10) : ℚ)
          / (entries.length : ℚ) > 1/5) →
        numeric_series strOf parseNum true entries
          = entries.map fun e => clean_long_numeric (some (strOf e))) ∧
      (¬(((entries.countP fun e => isDigitString (strOf e) : ℚ)
          / (entries.length : ℚ) > 4/5) ∧
        ((entries.countP fun e => decide ((strOf e).length > 10) : ℚ)
          / (entries.length : ℚ) > 1/5)) →
        numeric_series strOf parseNum true entries
          = entries.map parseNum)) ∧
    (∀ s : String, clean_long_numeric (some (String.mk (digitsOf s)))
        = clean_long_numeric (some s)) ∧
    (∀ s : String, (digitsOf s).length < 5 →
      clean_long_numeric (some s) = none) ∧
    (∀ (s : String) (v : ℚ), clean_long_numeric (some s) = some v →
      ((10000 : ℚ) ≤ v ∧ v ≤ 200000) ∧
      (v = (natOfDigits ((digitsOf s).take 6) : ℚ) ∨
        v = (natOfDigits ((digitsOf s).take 5) : ℚ))) ∧
    (∀ s : String, (∀ c ∈ s.data, c.isDigit) → s.data.length = 11 →
      10000 ≤ natOfDigits (s.data.take 5) →
      natOfDigits (s.data.take 5) ≤ 200000 →
      ∃ v : ℕ, clean_long_numeric (some s) = some (v : ℚ) ∧
        10000 ≤ v ∧ v ≤ 200000 ∧
        (v = natOfDigits (s.data.take 6) ∨ v = natOfDigits (s.data.take 5))) := by
  refine ⟨?_, ?_, ?_, ?_, ?_⟩
  · intro α strOf parseNum entries
    refine ⟨?_, ?_, ?_⟩
    · unfold numeric_series
      rw [if_neg]
      rintro ⟨h, -⟩
      exact Bool.false_ne_true h
    · intro h1 h2
      unfold numeric_series
      rw [if_pos ⟨rfl, h1, h2⟩]
    · intro hc
      unfold numeric_series
      rw [if_neg]
      rintro ⟨-, hh1, hh2⟩
      exact hc ⟨hh1, hh2⟩
  · intro s
    simp only [clean_long_numeric]
    rw [digitsOf_mk_digitsOf]
  · intro s h
    simp only [clean_long_numeric]
    rw [if_pos h]
  · intro s v h
    simp only [clean_long_numeric] at h
    by_cases h5 : (digitsOf s).length < 5
    · rw [if_pos h5] at h
      exact absurd h (by simp)
    rw [if_neg h5] at h
    by_cases h6 : (digitsOf s).length ≥ 6
    · rw [if_pos h6] at h
      have h2 : (if 10000 ≤ natOfDigits ((digitsOf s).take 6) ∧
            natOfDigits ((digitsOf s).take 6) ≤ 200000 then
          some ((natOfDigits ((digitsOf s).take 6) : ℕ) : ℚ)
        else if 10000 ≤ natOfDigits ((digitsOf s).take 5) ∧
            natOfDigits ((digitsOf s).take 5) ≤ 200000 then
          some ((natOfDigits ((digitsOf s).take 5) : ℕ) : ℚ)
        else none) = some v := h
      split_ifs at h2 with hb1 hb2
      · have hv : ((natOfDigits ((digitsOf s).take 6) : ℕ) : ℚ) = v :=
          Option.some.inj h2
        refine ⟨⟨?_, ?_⟩, Or.inl hv.symm⟩
        · rw [← hv]; exact_mod_cast hb1.1
        · rw [← hv]; exact_mod_cast hb1.2
      · have hv : ((natOfDigits ((digitsOf s).take 5) : ℕ) : ℚ) = v :=
          Option.some.inj h2
        refine ⟨⟨?_, ?_⟩, Or.inr hv.symm⟩
        · rw [← hv]; exact_mod_cast hb2.1
        · rw [← hv]; exact_mod_cast hb2.2
    · rw [if_neg h6] at h
      have h2 : (if 10000 ≤ natOfDigits ((digitsOf s).take 5) ∧
            natOfDigits ((digitsOf s).take 5) ≤ 200000 then
          some ((natOfDigits ((digitsOf s).take 5) : ℕ) : ℚ)
        else none) = some v := h
      split_ifs at h2 with hb
      · have hv : ((natOfDigits ((digitsOf s).take 5) : ℕ) : ℚ) = v :=
          Option.some.inj h2
        refine ⟨⟨?_, ?_⟩, Or.inr hv.symm⟩
        · rw [← hv]; exact_mod_cast hb.1
        · rw [← hv]; exact_mod_cast hb.2
  · intro s hdig hlen hlo hhi
    have hds : digitsOf s = s.data :=
      List.filter_eq_self.mpr fun c hc => hdig c hc
    have h5 : ¬((digitsOf s).length < 5) := by
      rw [hds, hlen]; norm_num
    have h6 : (digitsOf s).length ≥ 6 := by
      rw [hds, hlen]; norm_num
    by_cases hb6 : 10000 ≤ natOfDigits (s.data.take 6) ∧
        natOfDigits (s.data.take 6) ≤ 200000
    · refine ⟨natOfDigits (s.data.take 6), ?_, hb6.1, hb6.2, Or.inl rfl⟩
      simp only [clean_long_numeric]
      rw [if_neg h5, if_pos h6, hds]
      show (if 10000 ≤ natOfDigits (s.data.take 6) ∧
            natOfDigits (s.data.take 6) ≤ 200000 then
          some ((natOfDigits (s.data.take 6) : ℕ) : ℚ)
        else if 10000 ≤ natOfDigits (s.data.take 5) ∧
            natOfDigits (s.data.take 5) ≤ 200000 then
          some ((natOfDigits (s.data.take 5) : ℕ) : ℚ)
        else none) = some ((natOfDigits (s.data.take 6) : ℕ) : ℚ)
      rw [if_pos hb6]
    · refine ⟨natOfDigits (s.data.take 5), ?_, hlo, hhi, Or.inr rfl⟩
      simp only [clean_long_numeric]
      rw [if_neg h5, if_pos h6, hds]
      show (if 10000 ≤ natOfDigits (s.data.take 6) ∧
            natOfDigits (s.data.take 6) ≤ 200000 then
          some ((natOfDigits (s.data.take 6) : ℕ) : ℚ)
        else if 10000 ≤ natOfDigits (s.data.take 5) ∧
            natOfDigits (s.data.take 5) ≤ 200000 then
          some ((natOfDigits (s.data.take 5) : ℕ) : ℚ)
        else none) = some ((natOfDigits (s.data.take 5) : ℕ) : ℚ)
      rw [if_neg hb6, if_pos ⟨hlo, hhi⟩]

/-- Witness for claim C3: the scenario string and the stripping law at
concrete inputs. -/
theorem numeric_series_correct_witness :
    (∃ v : ℕ, clean_long_numeric (some "12345678901") = some (v : ℚ) ∧
      10000 ≤ v ∧ v ≤ 200000 ∧
      (v = natOfDigits ("12345678901".data.take 6) ∨
        v = natOfDigits ("12345678901".data.take 5))) ∧
    clean_long_numeric (some (String.mk (digitsOf "a1b2c3d4e5f6")))
      = clean_long_numeric (some "a1b2c3d4e5f6") ∧
    clean_long_numeric (some "12a4") = none :=
  ⟨numeric_series_correct.2.2.2.2 "12345678901" (by decide) (by decide)
      (by decide) (by decide),
   numeric_series_correct.2.1 "a1b2c3d4e5f6",
   numeric_series_correct.2.2.1 "12a4" (by decide)⟩

/-! ### Helper lemmas for year selection -/

theorem list_years_loop_ne_empty :
    ∀ (l : List YearVal) (seen : List String) (s : String),
      s ∈ list_years_loop l seen → s ≠ "" := by
  intro l
  induction l with
  | nil =>
    intro seen s hs
    cases hs
  | cons a t ih =>
    intro seen s hs
    unfold list_years_loop at hs
    split at hs
    · exact ih seen s hs
    · split at hs
      · exact ih seen s hs
      · rcases List.mem_cons.mp hs with rfl | hs2
        · rename_i hcond
          intro hc
          exact hcond (Or.inl hc)
        · exact ih _ s hs2

/-! ### Claim C8 -/

/-- Claim C8 is refuted as stated: with no year argument the `values`
endpoint defaults to the last year in first-appearance order, not the
lexicographically-last year.  On the concrete table with years listed as
2020 then 2019, the lexicographically-last year is 2020 yet the selected
rows are those of 2019. -/
theorem select_year_lex_counterexample :
    lex_last_year [YearVal.intV 2020, YearVal.intV 2019] = some "2020" ∧
    select_year_rows true
        [(YearVal.intV 2020, (0 : ℕ)), (YearVal.intV 2019, 1)] none
      = [(YearVal.intV 2019, 1)] ∧
    (YearVal.intV 2020, (0 : ℕ)) ∉ select_year_rows true
        [(YearVal.intV 2020, (0 : ℕ)), (YearVal.intV 2019, 1)] none := by
  refine ⟨by decide, by decide, by decide⟩

/-- Claim C8, amended: for a table with a `Year` column the endpoint
defaults to the last available year in first-appearance order (integer
years rendered without a decimal point), filtering the rows to exactly
that normalized year; a supplied year argument is normalized the same way
before matching. -/
theorem select_year_rows_correct {β : Type} (rows : List (YearVal × β)) :
    (list_years (rows.map Prod.fst) ≠ [] →
      ∃ s : String, (list_years (rows.map Prod.fst)).getLast? = some s ∧
        s ≠ "" ∧
        select_year_rows true rows none
          = rows.filter (fun r => decide (normalize_year_value r.1 = some s)) ∧
        ∀ r ∈ select_year_rows true rows none,
          normalize_year_value r.1 = some s) ∧
    (∀ (y : YearVal) (s : String),
      normalize_year_value y = some s → s ≠ "" →
      select_year_rows true rows (some y)
        = rows.filter fun r => decide (normalize_year_value r.1 = some s)) ∧
    (∀ n : ℤ, normalize_year_value (YearVal.intV n) = some (toString n)) := by
  refine ⟨?_, ?_, fun _ => rfl⟩
  · intro hne
    have hlast : (list_years (rows.map Prod.fst)).getLast?
        = some ((list_years (rows.map Prod.fst)).getLast hne) :=
      List.getLast?_eq_getLast _ hne
    set s := (list_years (rows.map Prod.fst)).getLast hne with hsdef
    have hsmem : s ∈ list_years (rows.map Prod.fst) := List.getLast_mem hne
    have hsne : s ≠ "" := list_years_loop_ne_empty _ _ s hsmem
    have hsel : select_year_rows true rows none
        = rows.filter fun r => decide (normalize_year_value r.1 = some s) := by
      unfold select_year_rows
      rw [if_pos rfl]
      simp only [Option.none_bind]
      rw [if_pos ⟨Or.inl trivial, hne⟩, hlast]
      show (if s = "" then rows
        else rows.filter fun r => decide (normalize_year_value r.1 = some s))
        = rows.filter fun r => decide (normalize_year_value r.1 = some s)
      rw [if_neg hsne]
    refine ⟨s, hlast, hsne, hsel, ?_⟩
    intro r hr
    rw [hsel] at hr
    exact of_decide_eq_true (List.mem_filter.mp hr).2
  · intro y s hy hsne
    unfold select_year_rows
    rw [if_pos rfl]
    simp only [Option.some_bind, hy]
    rw [if_neg]
    · show (if s = "" then rows
        else rows.filter fun r => decide (normalize_year_value r.1 = some s))
        = rows.filter fun r => decide (normalize_year_value r.1 = some s)
      rw [if_neg hsne]
    · rintro ⟨hc | hc, -⟩
      · exact Option.noConfusion hc
      · exact hsne (Option.some.inj hc)

/-- Witness for the amended claim C8 at a concrete table and year. -/
theorem select_year_rows_correct_witness :
    select_year_rows true
        [(YearVal.intV 2020, (0 : ℕ)), (YearVal.intV 2019, 1)]
        (some (YearVal.intV 2019))
      = ([(YearVal.intV 2020, (0 : ℕ)), (YearVal.intV 2019, 1)].filter
          fun r => decide (normalize_year_value r.1 = some "2019")) :=
  (select_year_rows_correct _).2.1 (YearVal.intV 2019) "2019" (by decide)
    (by decide)

/-! ### Helper lemmas for the values endpoint error handling -/

theorem values_resolve_some (files : String → String → Option Table)
    (dataset level varName : String) (df : Table)
    (h1 : dataset ∈ DATASET_KEYS) (h2 : level ∈ API_LEVELS)
    (hfile : files dataset level = some df) :
    values_resolve files dataset level varName =
      match (if dataset = "census" ∧ varName ∉ df.columns
        then find_derived varName else none) with
      | some (total_col, less_col) =>
        if total_col ∉ df.columns ∨ less_col ∉ df.columns then
          .error (.notFound "Unknown variable")
        else .ok (Table.mk (df.columns ++ [varName]))
      | none =>
        if varName ∉ df.columns then .error (.notFound "Unknown variable")
        else .ok df := by
  unfold values_resolve
  rw [if_neg (not_not_intro h1), if_neg (not_not_intro h2), hfile]

/-! ### Claim C9 -/

/-- Claim C9 is refuted as stated: a valid dataset and level whose backing
file is missing surfaces as an uncaught file-not-found error, which is a
distinct signal from the not-found responses, not a not-found signal. -/
theorem values_missing_file_counterexample :
    values_resolve (fun _ _ => none) "census" "state" "Population"
      = .error (.fileNotFound "census" "state") ∧
    ∀ d : String,
      (Except.error (ApiError.fileNotFound "census" "state") :
          Except ApiError Table)
        ≠ .error (.notFound d) := by
  constructor
  · rfl
  · intro d hc
    exact ApiError.noConfusion (Except.error.inj hc)

/-- Claim C9, amended: unknown dataset, unknown level and (after
derivation) unknown variable each fail with a not-found signal carrying a
human-readable reason; a valid identifier pair whose backing file is
missing on disk is distinguished from those, surfacing as a separate
file-not-found (server-fault) error rather than a not-found signal. -/
theorem values_resolve_errors (files : String → String → Option Table)
    (dataset level varName : String) :
    (dataset ∉ DATASET_KEYS →
      values_resolve files dataset level varName
        = .error (.notFound "Unknown dataset")) ∧
    (dataset ∈ DATASET_KEYS → level ∉ API_LEVELS →
      values_resolve files dataset level varName
        = .error (.notFound "Unknown level")) ∧
    (dataset ∈ DATASET_KEYS → level ∈ API_LEVELS →
      files dataset level = none →
      values_resolve files dataset level varName
        = .error (.fileNotFound dataset level) ∧
      ∀ d : String, ApiError.fileNotFound dataset level
        ≠ ApiError.notFound d) ∧
    (∀ df : Table, dataset ∈ DATASET_KEYS → level ∈ API_LEVELS →
      files dataset level = some df → varName ∉ df.columns →
      (dataset ≠ "census" ∨ find_derived varName = none) →
      values_resolve files dataset level varName
        = .error (.notFound "Unknown variable")) ∧
    (∀ (df : Table) (tc lc : String), dataset ∈ DATASET_KEYS →
      level ∈ API_LEVELS → files dataset level = some df →
      varName ∉ df.columns → dataset = "census" →
      find_derived varName = some (tc, lc) → tc ∉ df.columns →
      values_resolve files dataset level varName
        = .error (.notFound "Unknown variable")) := by
  refine ⟨?_, ?_, ?_, ?_, ?_⟩
  · intro h
    unfold values_resolve
    rw [if_pos h]
  · intro h1 h2
    unfold values_resolve
    rw [if_neg (not_not_intro h1), if_pos h2]
  · intro h1 h2 hfile
    constructor
    · unfold values_resolve
      rw [if_neg (not_not_intro h1), if_neg (not_not_intro h2), hfile]
    · intro d hc
      exact ApiError.noConfusion hc
  · intro df h1 h2 hfile hvar hderiv
    rw [values_resolve_some files dataset level varName df h1 h2 hfile]
    have hscrut : (if dataset = "census" ∧ varName ∉ df.columns
        then find_derived varName else none) = none := by
      rcases hderiv with h | h
      · rw [if_neg]
        rintro ⟨hc, -⟩
        exact h hc
      · split
        · exact h
        · rfl
    rw [hscrut]
    show (if varName ∉ df.columns then
        (.error (.notFound "Unknown variable") : Except ApiError Table)
      else .ok df) = .error (.notFound "Unknown variable")
    rw [if_pos hvar]
  · intro df tc lc h1 h2 hfile hvar hcensus hfd htc
    rw [values_resolve_some files dataset level varName df h1 h2 hfile]
    have hscrut : (if dataset = "census" ∧ varName ∉ df.columns
        then find_derived varName else none) = some (tc, lc) := by
      rw [if_pos ⟨hcensus, hvar⟩, hfd]
    rw [hscrut]
    show (if tc ∉ df.columns ∨ lc ∉ df.columns then
        (.error (.notFound "Unknown variable") : Except ApiError Table)
      else .ok (Table.mk (df.columns ++ [varName])))
      = .error (.notFound "Unknown variable")
    rw [if_pos (Or.inl htc)]

/-- Witness for the amended claim C9 at concrete inputs. -/
theorem values_resolve_errors_witness :
    values_resolve sampleFiles "bogus" "state" "Population"
      = .error (.notFound "Unknown dataset") ∧
    values_resolve sampleFiles "census" "county" "Population"
      = .error (.fileNotFound "census" "county") :=
  ⟨(values_resolve_errors sampleFiles "bogus" "state" "Population").1
      (by decide),
   ((values_resolve_errors sampleFiles "census" "county" "Population").2.2.1
      (by decide) (by decide) rfl).1⟩

end Dashboard
